import Mathlib

/-
Shallow embedding of the rule-evaluation engine of
src/server/src/ml_analyzer/analyzer.py (class MLCodeReviewer).

Modelling conventions:
* An Issue dict becomes a structure with the four fields used by the code.
* The rule registry (produced by get_comprehensive_rules in rules.py, which
  is external configuration) is an association list from category name to a
  rule record; optional dict keys become Option fields, mirroring
  details.get(...) and the membership tests in the Python code.
* A generic regex pattern is abstracted by its search function on strings;
  re.search(pattern, s, re.IGNORECASE) is modelled as applying that function
  to the lowercased text (reSearchIC), so that matching depends only on the
  case-folded text.  The generic patterns are only ever searched with
  re.IGNORECASE (analyzer.py lines 37 and 55), so this one function per
  pattern suffices.
* The scaling check uses the concrete regex r"\b" + algorithm + r"\b"
  (analyzer.py line 67, case-sensitive, and line 68 case-insensitively via
  _find_line_for_pattern); this is modelled concretely by wbSearch, a
  whole-word search for identifiers made of word characters.
* ast.parse is the Python parser, external to this file; its outcome on the
  given code is passed as a parameter: none for a successful parse and
  some e for a SyntaxError e carrying the optional line number and message.
-/

/-- An issue record as built by analyzer.py: fields line, issue, severity,
category. -/
structure Issue where
  line : Nat
  issue : String
  severity : String
  category : String
deriving DecidableEq, Repr

/-- A generic regex pattern, abstracted by its case-insensitive search
function: applied to the lowercased text it tells whether the pattern
matches anywhere in that text. -/
abbrev Pattern := String → Bool

/-- A rule record of the registry.  Optional dict keys are Option fields:
severity defaults via details.get with default "suggestion", patterns is
guarded by a membership test, and the scaling fields default to empty. -/
structure Rule where
  severity : Option String
  patterns : Option (List (Pattern × String))
  scale_sensitive_algorithms : Option (List (String × String))
  scalers : Option (List String)

/-- The rule registry: an insertion-ordered mapping from category name to
rule record, modelled as an association list. -/
abbrev Registry := List (String × Rule)

/-- The reviewer object: it holds the registry loaded at construction. -/
structure MLCodeReviewer where
  rules : Registry

/-- The outcome of a failed ast.parse: the SyntaxError data used by
analyzer.py, an optional line number and a message. -/
structure SyntaxErr where
  lineno : Option Nat
  msg : String

/-- Python truthiness of e.lineno in the expression e.lineno or 1: both
None and 0 fall back to 1. -/
def pyLineOr1 : Option Nat → Nat
  | none => 1
  | some n => if n = 0 then 1 else n

/-- Python str.lower for the ASCII identifiers and code handled here:
lowercase every character. -/
def pyLower (s : String) : String :=
  String.mk (s.data.map Char.toLower)

/-- re.search of a generic pattern with re.IGNORECASE against a text:
the abstract matcher applied to the lowercased text. -/
def reSearchIC (p : Pattern) (s : String) : Bool :=
  p (pyLower s)

/-- A word character in the sense of the regex class backslash-w. -/
def isWordChar (c : Char) : Bool :=
  c.isAlphanum || c == '_'

/-- The word-boundary condition to the right of a match: the remaining
text is empty or starts with a non-word character. -/
def boundaryOk : List Char → Bool
  | [] => true
  | c :: _ => !isWordChar c

/-- Whether the identifier matches at the current position with a word
boundary on its right. -/
def matchAt (alg s : List Char) : Bool :=
  alg.isPrefixOf s && boundaryOk (s.drop alg.length)

/-- The word-boundary condition to the left of a match, given the previous
character (none at the start of the text). -/
def prevOk : Option Char → Bool
  | none => true
  | some c => !isWordChar c

/-- Scan of the text for a whole-word occurrence of the identifier,
carrying the previously consumed character. -/
def wbSearchAux (alg : List Char) : Option Char → List Char → Bool
  | _, [] => false
  | prev, c :: rest =>
    (prevOk prev && matchAt alg (c :: rest)) || wbSearchAux alg (some c) rest

/-- Models re.search of the pattern r"\b" ++ alg ++ r"\b" (case-sensitive)
for an identifier alg made of word characters: a whole-word occurrence of
alg somewhere in s. -/
def wbSearch (alg s : String) : Bool :=
  wbSearchAux alg.data none s.data

/-- Scan for an occurrence of the needle at any position of the hay. -/
def containsSubAux (needle : List Char) : List Char → Bool
  | [] => needle.isEmpty
  | c :: rest => needle.isPrefixOf (c :: rest) || containsSubAux needle rest

/-- Python substring containment needle in hay. -/
def containsSub (needle hay : String) : Bool :=
  containsSubAux needle.data hay.data

/-- Split a character list on the newline character; like splitting a
string on a one-character separator, the result is always nonempty. -/
def splitNl : List Char → List (List Char)
  | [] => [[]]
  | c :: rest =>
    match splitNl rest with
    | [] => []
    | h :: t => if c = '\n' then [] :: h :: t else (c :: h) :: t

/-- Python str.splitlines for newline-terminated text: split on the newline
character, a trailing newline producing no trailing empty line, and the
empty text producing no lines. -/
def splitlines (s : String) : List String :=
  if s.data = [] then []
  else
    let parts := (splitNl s.data).map String.mk
    if parts.getLast? = some "" then parts.dropLast else parts

/-- Scan of _find_line_for_pattern: the running 1-based index and the
remaining lines; falls back to 1 after the last line. -/
def findLineAux (p : Pattern) : Nat → List String → Nat
  | _, [] => 1
  | i, l :: ls => if reSearchIC p l then i else findLineAux p (i + 1) ls

/-- MLCodeReviewer._find_line_for_pattern: the first 1-based line index
whose line matches the pattern with re.IGNORECASE, else 1. -/
def find_line_for_pattern (lines : List String) (p : Pattern) : Nat :=
  findLineAux p 1 lines

/-- The issue emitted for one (pattern, message) pair of a rule, in the
inner loop of analyze_code: one issue when the pattern matches the full
text case-insensitively, nothing otherwise. -/
def pairIssue (code : String) (lines : List String) (category severity : String)
    (pm : Pattern × String) : List Issue :=
  if reSearchIC pm.1 code then
    [{ line := find_line_for_pattern lines pm.1, issue := pm.2,
       severity := severity, category := category }]
  else []

/-- The issues emitted for one registry entry by the generic pattern loop
of analyze_code: severity defaults to "suggestion", and a rule without a
patterns key contributes nothing. -/
def ruleIssues (code : String) (lines : List String) (cr : String × Rule) :
    List Issue :=
  match cr.2.patterns with
  | none => []
  | some pats => pats.flatMap (pairIssue code lines cr.1 (cr.2.severity.getD "suggestion"))

/-- The issue list contributed by one (algorithm, full_name) entry of the
scaling rule in _detect_scaling_issues. -/
def algIssue (scalers : List String) (code : String) (lines : List String)
    (af : String × String) : List Issue :=
  if wbSearch af.1 code && !(scalers.any fun sc => containsSub sc code) then
    [{ line := find_line_for_pattern lines (fun t => wbSearch (pyLower af.1) t),
       issue := af.2 ++ " is sensitive to feature scaling. Consider using a scaler.",
       severity := "warning", category := "scaling" }]
  else []

/-- MLCodeReviewer._detect_scaling_issues: for each scale-sensitive
algorithm, emit a warning when it occurs as a whole word and no scaler
substring occurs anywhere in the code. -/
def MLCodeReviewer.detect_scaling_issues (self : MLCodeReviewer) (code : String)
    (lines : List String) : List Issue :=
  match self.rules.lookup "feature_scaling" with
  | none => []
  | some rule_info =>
    (rule_info.scale_sensitive_algorithms.getD []).flatMap
      (algIssue (rule_info.scalers.getD []) code lines)

/-- MLCodeReviewer._ast_analysis: empty on a successful parse, otherwise
the single critical syntax issue built from the SyntaxError. -/
def ast_analysis (perr : Option SyntaxErr) : List Issue :=
  match perr with
  | none => []
  | some e =>
    [{ line := pyLineOr1 e.lineno, issue := "Fatal Syntax Error: " ++ e.msg,
       severity := "error", category := "syntax" }]

/-- The scan of _deduplicate_issues, carrying the set of already seen
(message, line) keys as a list. -/
def dedupAux (seen : List (String × Nat)) : List Issue → List Issue
  | [] => []
  | i :: rest =>
    if seen.contains (i.issue, i.line) then dedupAux seen rest
    else i :: dedupAux ((i.issue, i.line) :: seen) rest

/-- MLCodeReviewer._deduplicate_issues: keep the first issue for each
(message, line) key, in order. -/
def deduplicate_issues (issues : List Issue) : List Issue :=
  dedupAux [] issues

/-- MLCodeReviewer.analyze_code: syntax short-circuit, then the generic
pattern loop over the registry, then the scaling check when the registry
has a feature_scaling entry, then deduplication. -/
def MLCodeReviewer.analyze_code (self : MLCodeReviewer) (perr : Option SyntaxErr)
    (code : String) : List Issue :=
  match ast_analysis perr with
  | [] =>
    let lines := splitlines code
    let patternIssues := self.rules.flatMap (ruleIssues code lines)
    let issues := patternIssues ++
      (if (self.rules.lookup "feature_scaling").isSome
       then self.detect_scaling_issues code lines else [])
    deduplicate_issues issues
  | l => l

/-- Modelled from the spec: main.py (the presentation layer, not under
src/) treats the severity string "error" as the critical tier; the spec
names the closed severity set with error and critical as a single tier. -/
def severityCritical (s : String) : Bool :=
  s == "error" || s == "critical"

/-- State-passing embedding of the analyze_code method call on the
reviewer object: the method body never assigns to self.rules, so the
post-state is the pre-state. -/
def MLCodeReviewer.analyze_code_st (self : MLCodeReviewer) (perr : Option SyntaxErr)
    (code : String) : List Issue × MLCodeReviewer :=
  (self.analyze_code perr code, self)

/-! ## Helper lemmas -/

/-- The scan of _find_line_for_pattern computes the first matching index
(shifted by the running counter), falling back to 1. -/
theorem findLineAux_eq (p : Pattern) (i : Nat) (ls : List String) :
    findLineAux p i ls =
      ((ls.findIdx? (fun l => reSearchIC p l)).map (· + i)).getD 1 := by
  induction ls generalizing i with
  | nil => rfl
  | cons l ls ih =>
    rw [findLineAux, List.findIdx?_cons]
    by_cases h : reSearchIC p l
    · simp [h]
    · rw [if_neg h, if_neg (by simp [h]), List.findIdx?_succ, ih (i + 1)]
      cases ls.findIdx? (fun l => reSearchIC p l) with
      | none => rfl
      | some n => simp [Nat.add_assoc, Nat.add_comm 1 i]

/-- _find_line_for_pattern returns the 1-based index of the first line
matching the pattern case-insensitively, or 1 when no line matches. -/
theorem find_line_for_pattern_eq (lines : List String) (p : Pattern) :
    find_line_for_pattern lines p =
      ((lines.findIdx? (fun l => reSearchIC p l)).map (· + 1)).getD 1 :=
  findLineAux_eq p 1 lines

/-- analyze_code on syntactically valid input is the deduplicated
concatenation of the pattern-loop issues and the scaling-check issues. -/
theorem analyze_code_none_eq (self : MLCodeReviewer) (code : String) :
    self.analyze_code none code =
      deduplicate_issues
        (self.rules.flatMap (ruleIssues code (splitlines code)) ++
          (if (self.rules.lookup "feature_scaling").isSome
           then self.detect_scaling_issues code (splitlines code) else [])) := rfl

/-! ## C1 -/

/-- C1: for every input whose parse fails, analyze_code returns exactly one
issue: category "syntax", a severity in the critical tier, a message that
starts with the fixed prefix "Fatal Syntax Error: ", and the line reported
by the parser (1 when the parser gives none); no pattern-rule or scaling
issue appears in that result. -/
theorem syntax_short_circuit (self : MLCodeReviewer) (e : SyntaxErr) (code : String) :
    self.analyze_code (some e) code =
      [{ line := pyLineOr1 e.lineno, issue := "Fatal Syntax Error: " ++ e.msg,
         severity := "error", category := "syntax" }] ∧
    severityCritical "error" = true ∧
    "Fatal Syntax Error: ".data.isPrefixOf ("Fatal Syntax Error: " ++ e.msg).data = true := by
  refine ⟨rfl, rfl, ?_⟩
  rw [String.data_append]
  exact List.isPrefixOf_iff_prefix.mpr (List.prefix_append _ _)

/-! ## C2 -/

/-- C2: on valid input, for every registry entry and every (pattern,
message) pair of its patterns: the pattern loop emits one issue for the
pair exactly when the pattern matches the full text case-insensitively,
carrying the rule's message, default-completed severity and category, and
the first case-insensitively matching line (1 when no single line
matches); analyze_code returns the deduplication of these emissions
together with the scaling check. -/
theorem pattern_rule_emission (self : MLCodeReviewer) (code : String)
    (c : String) (r : Rule) (pats : List (Pattern × String))
    (p : Pattern) (m : String)
    (hcr : (c, r) ∈ self.rules) (hpats : r.patterns = some pats)
    (hpm : (p, m) ∈ pats) :
    self.analyze_code none code =
      deduplicate_issues
        (self.rules.flatMap (ruleIssues code (splitlines code)) ++
          (if (self.rules.lookup "feature_scaling").isSome
           then self.detect_scaling_issues code (splitlines code) else [])) ∧
    ruleIssues code (splitlines code) (c, r) =
      pats.flatMap (pairIssue code (splitlines code) c (r.severity.getD "suggestion")) ∧
    (reSearchIC p code = true →
      pairIssue code (splitlines code) c (r.severity.getD "suggestion") (p, m) =
        [{ line := find_line_for_pattern (splitlines code) p, issue := m,
           severity := r.severity.getD "suggestion", category := c }]) ∧
    (reSearchIC p code = false →
      pairIssue code (splitlines code) c (r.severity.getD "suggestion") (p, m) = []) ∧
    find_line_for_pattern (splitlines code) p =
      (((splitlines code).findIdx? (fun l => reSearchIC p l)).map (· + 1)).getD 1 := by
  refine ⟨rfl, ?_, ?_, ?_, find_line_for_pattern_eq _ _⟩
  · rw [ruleIssues, hpats]
  · intro h
    rw [pairIssue, if_pos h]
  · intro h
    rw [pairIssue, if_neg (by simp [h])]

/-- A concrete generic pattern for instantiation: a case-insensitive search
for the literal text dropna. -/
def wPat : Pattern := fun s => containsSub "dropna" s

/-- A concrete rule with one generic pattern. -/
def wRuleQ : Rule :=
  { severity := some "warning", patterns := some [(wPat, "Dropping rows found")],
    scale_sensitive_algorithms := none, scalers := none }

/-- A concrete reviewer holding one pattern rule. -/
def wRevQ : MLCodeReviewer := { rules := [("data_quality", wRuleQ)] }

/-- Witness for C2 at a concrete registry, pattern and input text. -/
theorem pattern_rule_emission_witness :
    pairIssue "df.DropNA()" (splitlines "df.DropNA()") "data_quality"
        (wRuleQ.severity.getD "suggestion") (wPat, "Dropping rows found") =
      [{ line := find_line_for_pattern (splitlines "df.DropNA()") wPat,
         issue := "Dropping rows found",
         severity := wRuleQ.severity.getD "suggestion", category := "data_quality" }] :=
  ((pattern_rule_emission wRevQ "df.DropNA()" "data_quality" wRuleQ
      [(wPat, "Dropping rows found")] wPat "Dropping rows found"
      (List.mem_singleton_self _) rfl (List.mem_singleton_self _)).2.2.1) (by rfl)

/-! ## C3 -/

/-- C3: on valid input, when the registry has a feature_scaling entry, for
every (algorithm, full name) pair of it: the scaling check runs entry by
entry, and when the algorithm occurs as a whole word in the code and no
scaler substring occurs in the code, the entry contributes exactly one
issue with severity "warning", category "scaling", a message naming the
full display name, and the first line matching the whole word
(case-insensitively, falling back to 1). -/
theorem scaling_detection (self : MLCodeReviewer) (code : String)
    (r : Rule) (alg full : String)
    (hr : self.rules.lookup "feature_scaling" = some r)
    (halg : (alg, full) ∈ r.scale_sensitive_algorithms.getD [])
    (hw : wbSearch alg code = true)
    (hs : (r.scalers.getD []).any (fun sc => containsSub sc code) = false) :
    self.detect_scaling_issues code (splitlines code) =
      (r.scale_sensitive_algorithms.getD []).flatMap
        (algIssue (r.scalers.getD []) code (splitlines code)) ∧
    algIssue (r.scalers.getD []) code (splitlines code) (alg, full) =
      [{ line := find_line_for_pattern (splitlines code) (fun t => wbSearch (pyLower alg) t),
         issue := full ++ " is sensitive to feature scaling. Consider using a scaler.",
         severity := "warning", category := "scaling" }] ∧
    find_line_for_pattern (splitlines code) (fun t => wbSearch (pyLower alg) t) =
      (((splitlines code).findIdx? (fun l => wbSearch (pyLower alg) (pyLower l))).map (· + 1)).getD 1 := by
  refine ⟨?_, ?_, find_line_for_pattern_eq _ _⟩
  · unfold MLCodeReviewer.detect_scaling_issues
    rw [hr]
  · unfold algIssue
    rw [hw, hs]
    rfl

/-- A concrete scaling rule: one scale-sensitive algorithm and two
recognized scalers. -/
def wRuleS : Rule :=
  { severity := some "warning", patterns := none,
    scale_sensitive_algorithms := some [("KMeans", "K-Means Clustering")],
    scalers := some ["StandardScaler", "MinMaxScaler"] }

/-- A concrete reviewer holding only the scaling rule. -/
def wRevS : MLCodeReviewer := { rules := [("feature_scaling", wRuleS)] }

/-- Witness for C3 at a concrete registry and input text. -/
theorem scaling_detection_witness :
    algIssue (wRuleS.scalers.getD []) "model = KMeans()" (splitlines "model = KMeans()")
        ("KMeans", "K-Means Clustering") =
      [{ line := find_line_for_pattern (splitlines "model = KMeans()")
             (fun t => wbSearch (pyLower "KMeans") t),
         issue := "K-Means Clustering is sensitive to feature scaling. Consider using a scaler.",
         severity := "warning", category := "scaling" }] :=
  (scaling_detection wRevS "model = KMeans()" wRuleS "KMeans" "K-Means Clustering"
    rfl (List.mem_singleton_self _) (by rfl) (by rfl)).2.1

/-! ## C4 -/

/-- C4: on valid input, when some scaler substring listed in the
feature_scaling rule occurs anywhere in the code, the scaling check emits
nothing at all, and analyze_code returns only the deduplicated output of
the generic pattern loop. -/
theorem scaler_suppression (self : MLCodeReviewer) (code : String)
    (r : Rule) (scaler : String)
    (hr : self.rules.lookup "feature_scaling" = some r)
    (hs : scaler ∈ r.scalers.getD [])
    (hin : containsSub scaler code = true) :
    self.detect_scaling_issues code (splitlines code) = [] ∧
    self.analyze_code none code =
      deduplicate_issues (self.rules.flatMap (ruleIssues code (splitlines code))) := by
  have hany : (r.scalers.getD []).any (fun sc => containsSub sc code) = true :=
    List.any_eq_true.mpr ⟨scaler, hs, hin⟩
  have hdet : self.detect_scaling_issues code (splitlines code) = [] := by
    unfold MLCodeReviewer.detect_scaling_issues
    rw [hr]
    refine List.flatMap_eq_nil_iff.mpr fun af _ => ?_
    unfold algIssue
    rw [hany]
    simp
  refine ⟨hdet, ?_⟩
  rw [analyze_code_none_eq, hr]
  simp [hdet]

/-- Witness for C4: the same algorithm together with an imported scaler
produces no scaling issue. -/
theorem scaler_suppression_witness :
    wRevS.detect_scaling_issues
      "from sklearn.preprocessing import StandardScaler\nmodel = KMeans()"
      (splitlines "from sklearn.preprocessing import StandardScaler\nmodel = KMeans()") = [] :=
  (scaler_suppression wRevS
    "from sklearn.preprocessing import StandardScaler\nmodel = KMeans()"
    wRuleS "StandardScaler" rfl (by decide) (by rfl)).1

/-! ## C5 -/

/-- The right-boundary condition phrased on the head character of the
remaining text. -/
theorem boundaryOk_iff (post : List Char) :
    boundaryOk post = true ↔ ∀ c, post.head? = some c → isWordChar c = false := by
  cases post with
  | nil => simp [boundaryOk]
  | cons c t => simp [boundaryOk]

/-- The scan finds a whole-word occurrence exactly when the identifier
occurs with non-word characters (or text ends) on both sides, given the
previously consumed character. -/
theorem wbSearchAux_iff (alg : List Char) (halg : alg ≠ []) (prev : Option Char)
    (s : List Char) :
    wbSearchAux alg prev s = true ↔
      ∃ pre post, s = pre ++ alg ++ post ∧
        (pre.getLast? = none → prevOk prev = true) ∧
        (∀ c, pre.getLast? = some c → isWordChar c = false) ∧
        boundaryOk post = true := by
  induction s generalizing prev with
  | nil =>
    constructor
    · intro h; simp [wbSearchAux] at h
    · rintro ⟨pre, post, hps, -, -, -⟩
      exfalso
      rcases List.append_eq_nil.mp hps.symm with ⟨h12, -⟩
      rcases List.append_eq_nil.mp h12 with ⟨-, halg2⟩
      exact halg halg2
  | cons c rest ih =>
    rw [wbSearchAux, Bool.or_eq_true, Bool.and_eq_true]
    constructor
    · rintro (⟨hprev, hmatch⟩ | htail)
      · rw [matchAt, Bool.and_eq_true] at hmatch
        obtain ⟨hpre, hbd⟩ := hmatch
        obtain ⟨t, ht⟩ := List.isPrefixOf_iff_prefix.mp hpre
        refine ⟨[], t, by simp [← ht], fun _ => hprev, by simp, ?_⟩
        rw [← ht, List.drop_left] at hbd
        exact hbd
      · obtain ⟨pre, post, hs, h1, h2, h3⟩ := (ih (some c)).mp htail
        refine ⟨c :: pre, post, by simp [hs], ?_, ?_, h3⟩
        · intro hnone; cases pre <;> simp at hnone
        · intro c' hc'
          cases pre with
          | nil =>
            simp at hc'
            subst hc'
            have := h1 rfl
            rw [prevOk] at this
            simpa using this
          | cons d pre' =>
            rw [List.getLast?_cons_cons] at hc'
            exact h2 c' hc'
    · rintro ⟨pre, post, hs, h1, h2, h3⟩
      cases pre with
      | nil =>
        left
        simp only [List.nil_append] at hs
        refine ⟨h1 rfl, ?_⟩
        rw [matchAt, Bool.and_eq_true, hs]
        exact ⟨List.isPrefixOf_iff_prefix.mpr (List.prefix_append _ _),
          by rw [List.drop_left]; exact h3⟩
      | cons d pre' =>
        right
        simp only [List.cons_append] at hs
        obtain ⟨hd, hrest⟩ := List.cons.inj hs
        apply (ih (some c)).mpr
        refine ⟨pre', post, hrest, ?_, ?_, h3⟩
        · intro hnone
          have hpre' : pre' = [] := by
            cases pre' with
            | nil => rfl
            | cons e pre'' => simp at hnone
          subst hpre'
          have hw := h2 d (by simp)
          rw [prevOk, hd]
          simp [hw]
        · intro c' hc'
          apply h2 c'
          cases pre' with
          | nil => simp at hc'
          | cons e pre'' =>
            rw [List.getLast?_cons_cons]
            exact hc'

/-- C5: whole-word detection of a nonempty algorithm identifier succeeds
exactly when the identifier occurs with a word boundary on both sides: a
non-word character (or the text edge) on the left and on the right.  In
particular an occurrence only inside a longer word is not detected, and
without a whole-word occurrence the scaling check contributes no issue for
that algorithm. -/
theorem whole_word_boundary (alg full code : String) (scalers : List String)
    (lines : List String) (halg : alg.data ≠ []) :
    (wbSearch alg code = true ↔
      ∃ pre post : List Char, code.data = pre ++ alg.data ++ post ∧
        (∀ c, pre.getLast? = some c → isWordChar c = false) ∧
        (∀ c, post.head? = some c → isWordChar c = false)) ∧
    (wbSearch alg code = false → algIssue scalers code lines (alg, full) = []) := by
  constructor
  · rw [wbSearch, wbSearchAux_iff alg.data halg none]
    constructor
    · rintro ⟨pre, post, h, -, h2, h3⟩
      exact ⟨pre, post, h, h2, (boundaryOk_iff post).mp h3⟩
    · rintro ⟨pre, post, h, h2, h3⟩
      exact ⟨pre, post, h, fun _ => rfl, h2, (boundaryOk_iff post).mpr h3⟩
  · intro h
    unfold algIssue
    simp [h]

/-- Witness for C5: the identifier KMeans occurring only inside the longer
identifier KMeansPlusPlus triggers no scaling issue. -/
theorem whole_word_boundary_witness :
    algIssue ["StandardScaler"] "y = KMeansPlusPlus()" ["y = KMeansPlusPlus()"]
      ("KMeans", "K-Means Clustering") = [] :=
  (whole_word_boundary "KMeans" "K-Means Clustering" "y = KMeansPlusPlus()"
    ["StandardScaler"] ["y = KMeansPlusPlus()"] (by decide)).2 (by rfl)

/-! ## C6 -/

/-- The dedup scan output is a sublist of its input: first-seen order is
preserved. -/
theorem dedupAux_sublist (seen : List (String × Nat)) (xs : List Issue) :
    List.Sublist (dedupAux seen xs) xs := by
  induction xs generalizing seen with
  | nil => simp [dedupAux]
  | cons i rest ih =>
    rw [dedupAux]
    by_cases h : seen.contains (i.issue, i.line)
    · rw [if_pos h]; exact (ih seen).cons i
    · rw [if_neg h]; exact (ih _).cons₂ i

/-- No element kept by the dedup scan has a key already in the seen set. -/
theorem dedupAux_mem_not_seen (seen : List (String × Nat)) (xs : List Issue)
    (y : Issue) (hy : y ∈ dedupAux seen xs) : ¬ (y.issue, y.line) ∈ seen := by
  induction xs generalizing seen with
  | nil => simp [dedupAux] at hy
  | cons i rest ih =>
    rw [dedupAux] at hy
    by_cases h : seen.contains (i.issue, i.line)
    · rw [if_pos h] at hy; exact ih seen hy
    · rw [if_neg h] at hy
      rcases List.mem_cons.mp hy with rfl | hy'
      · intro hmem
        exact h (List.elem_iff.mpr hmem)
      · intro hmem
        exact ih _ hy' (List.mem_cons_of_mem _ hmem)

/-- The dedup scan output carries pairwise distinct (message, line) keys. -/
theorem dedupAux_pairwise (seen : List (String × Nat)) (xs : List Issue) :
    (dedupAux seen xs).Pairwise (fun a b => ¬(a.issue = b.issue ∧ a.line = b.line)) := by
  induction xs generalizing seen with
  | nil => simp [dedupAux]
  | cons i rest ih =>
    rw [dedupAux]
    by_cases h : seen.contains (i.issue, i.line)
    · rw [if_pos h]; exact ih seen
    · rw [if_neg h]
      refine List.Pairwise.cons ?_ (ih _)
      intro b hb hkey
      apply dedupAux_mem_not_seen _ _ b hb
      rw [← hkey.1, ← hkey.2]
      exact List.mem_cons_self _ _

/-- Every input issue is represented in the dedup scan output by an issue
with the same key (message and line), whatever its category or severity. -/
theorem dedupAux_covers (seen : List (String × Nat)) (xs : List Issue) (x : Issue)
    (hx : x ∈ xs) :
    (x.issue, x.line) ∈ seen ∨
      ∃ y ∈ dedupAux seen xs, y.issue = x.issue ∧ y.line = x.line := by
  induction xs generalizing seen with
  | nil => cases hx
  | cons i rest ih =>
    rw [dedupAux]
    by_cases h : seen.contains (i.issue, i.line)
    · rw [if_pos h]
      rcases List.mem_cons.mp hx with rfl | hx'
      · exact Or.inl (List.elem_iff.mp h)
      · exact ih seen hx'
    · rw [if_neg h]
      rcases List.mem_cons.mp hx with rfl | hx'
      · exact Or.inr ⟨x, List.mem_cons_self _ _, rfl, rfl⟩
      · rcases ih ((i.issue, i.line) :: seen) hx' with hseen | ⟨y, hy, hk⟩
        · rcases List.mem_cons.mp hseen with heq | hseen'
          · obtain ⟨h1, h2⟩ := Prod.ext_iff.mp heq
            exact Or.inr ⟨i, List.mem_cons_self _ _, h1.symm, h2.symm⟩
          · exact Or.inl hseen'
        · exact Or.inr ⟨y, List.mem_cons_of_mem _ hy, hk⟩

/-- Every issue kept by the dedup scan is the first element of the input
carrying its (message, line) key. -/
theorem dedupAux_first (seen : List (String × Nat)) (xs : List Issue) (y : Issue)
    (hy : y ∈ dedupAux seen xs) :
    ∃ pre post, xs = pre ++ y :: post ∧
      ∀ z ∈ pre, ¬(z.issue = y.issue ∧ z.line = y.line) := by
  induction xs generalizing seen with
  | nil => simp [dedupAux] at hy
  | cons i rest ih =>
    rw [dedupAux] at hy
    by_cases h : seen.contains (i.issue, i.line)
    · rw [if_pos h] at hy
      obtain ⟨pre, post, hsplit, hpre⟩ := ih seen hy
      refine ⟨i :: pre, post, by rw [List.cons_append, hsplit], ?_⟩
      intro z hz
      rcases List.mem_cons.mp hz with rfl | hz'
      · intro hkey
        apply dedupAux_mem_not_seen seen rest y hy
        rw [← hkey.1, ← hkey.2]
        exact List.elem_iff.mp h
      · exact hpre z hz'
    · rw [if_neg h] at hy
      rcases List.mem_cons.mp hy with rfl | hy'
      · exact ⟨[], rest, rfl, by simp⟩
      · obtain ⟨pre, post, hsplit, hpre⟩ := ih _ hy'
        refine ⟨i :: pre, post, by rw [List.cons_append, hsplit], ?_⟩
        intro z hz
        rcases List.mem_cons.mp hz with rfl | hz'
        · intro hkey
          apply dedupAux_mem_not_seen _ _ y hy'
          rw [← hkey.1, ← hkey.2]
          exact List.mem_cons_self _ _
        · exact hpre z hz'

/-- C6: no two issues returned by analyze_code share both message and
line; deduplication preserves first-seen order (the output is a sublist of
the input), every input issue is represented by one with the same key
whatever its category and severity, and the kept issue is the first-seen
one with that key. -/
theorem dedup_correctness (self : MLCodeReviewer) (perr : Option SyntaxErr)
    (code : String) (xs : List Issue) (x : Issue) (hx : x ∈ xs) :
    (self.analyze_code perr code).Pairwise
        (fun a b => ¬(a.issue = b.issue ∧ a.line = b.line)) ∧
    List.Sublist (deduplicate_issues xs) xs ∧
    (∃ y ∈ deduplicate_issues xs, y.issue = x.issue ∧ y.line = x.line) ∧
    (x ∈ deduplicate_issues xs →
      ∃ pre post, xs = pre ++ x :: post ∧
        ∀ z ∈ pre, ¬(z.issue = x.issue ∧ z.line = x.line)) := by
  refine ⟨?_, dedupAux_sublist [] xs, ?_, fun hmem => dedupAux_first [] xs x hmem⟩
  · cases perr with
    | none => exact dedupAux_pairwise [] _
    | some e => exact List.pairwise_singleton _ _
  · rcases dedupAux_covers [] xs x hx with hseen | hcov
    · cases hseen
    · exact hcov

/-- Two issues sharing message and line while differing in severity and
category. -/
def wI1 : Issue := { line := 2, issue := "dup message", severity := "warning", category := "a" }

/-- A distinct middle issue. -/
def wI2 : Issue := { line := 3, issue := "other message", severity := "info", category := "b" }

/-- The later duplicate of wI1 under the (message, line) key. -/
def wI3 : Issue := { line := 2, issue := "dup message", severity := "error", category := "c" }

/-- A concrete issue list with a duplicate key. -/
def wIssues : List Issue := [wI1, wI2, wI3]

/-- Witness for C6 at a concrete issue list containing a duplicate key. -/
theorem dedup_correctness_witness :
    wI3 ∈ wIssues ∧ List.Sublist (deduplicate_issues wIssues) wIssues :=
  ⟨by decide, (dedup_correctness wRevQ none "" wIssues wI3 (by decide)).2.1⟩

/-! ## C7 -/

/-- C7: whole-word detection of an algorithm identifier is case-sensitive
while the line lookup for an emitted scaling issue is case-insensitive.
On the two-line input whose first line contains the identifier only in
lower case and whose second line contains the case-exact whole word, the
emitted issue reports line 1, which differs from the only line with a
case-exact occurrence; and an input containing the identifier only in a
different case emits no scaling issue at all. -/
theorem case_sensitivity_line_mismatch :
    wRevS.analyze_code none "kmeans = 5\nmodel = KMeans()" =
      [{ line := 1,
         issue := "K-Means Clustering is sensitive to feature scaling. Consider using a scaler.",
         severity := "warning", category := "scaling" }] ∧
    splitlines "kmeans = 5\nmodel = KMeans()" = ["kmeans = 5", "model = KMeans()"] ∧
    wbSearch "KMeans" "kmeans = 5" = false ∧
    wbSearch "KMeans" "model = KMeans()" = true ∧
    wRevS.analyze_code none "kmeans = 5" = [] :=
  ⟨rfl, rfl, rfl, rfl, rfl⟩

/-! ## C8 -/

/-- C8: registry defaulting.  A rule without a severity field emits its
pattern issues with severity "suggestion"; a rule without a patterns field
contributes no pattern issues at all; a feature_scaling rule without the
specialized algorithm mapping makes the scaling check contribute nothing.
All defaulting is local and total: no error is surfaced. -/
theorem rule_defaults (code : String) (lines : List String) (c : String)
    (r r2 rf : Rule) (pats : List (Pattern × String)) (self : MLCodeReviewer)
    (h1 : r.severity = none) (h2 : r.patterns = some pats)
    (h3 : r2.patterns = none)
    (h4 : self.rules.lookup "feature_scaling" = some rf)
    (h5 : rf.scale_sensitive_algorithms = none) :
    ruleIssues code lines (c, r) = pats.flatMap (pairIssue code lines c "suggestion") ∧
    ruleIssues code lines (c, r2) = [] ∧
    self.detect_scaling_issues code lines = [] := by
  refine ⟨?_, ?_, ?_⟩
  · rw [ruleIssues, h2, h1]
    rfl
  · rw [ruleIssues, h3]
  · unfold MLCodeReviewer.detect_scaling_issues
    rw [h4]
    show (rf.scale_sensitive_algorithms.getD []).flatMap
      (algIssue (rf.scalers.getD []) code lines) = []
    rw [h5]
    rfl

/-- A rule with no severity field. -/
def wRuleNoSev : Rule :=
  { severity := none, patterns := some [(wPat, "Dropping rows found")],
    scale_sensitive_algorithms := none, scalers := none }

/-- A rule with no patterns field. -/
def wRuleNoPat : Rule :=
  { severity := some "info", patterns := none,
    scale_sensitive_algorithms := none, scalers := none }

/-- A feature_scaling rule with no algorithm mapping. -/
def wRuleNoAlgs : Rule :=
  { severity := some "warning", patterns := none,
    scale_sensitive_algorithms := none, scalers := some ["StandardScaler"] }

/-- A reviewer whose feature_scaling rule has no algorithm mapping. -/
def wRevDefaults : MLCodeReviewer := { rules := [("feature_scaling", wRuleNoAlgs)] }

/-- Witness for C8 at concrete rules with missing optional fields. -/
theorem rule_defaults_witness :
    ruleIssues "df.dropna()" ["df.dropna()"] ("data_quality", wRuleNoSev) =
      [(wPat, "Dropping rows found")].flatMap
        (pairIssue "df.dropna()" ["df.dropna()"] "data_quality" "suggestion") ∧
    ruleIssues "df.dropna()" ["df.dropna()"] ("data_quality", wRuleNoPat) = [] ∧
    wRevDefaults.detect_scaling_issues "df.dropna()" ["df.dropna()"] = [] :=
  rule_defaults "df.dropna()" ["df.dropna()"] "data_quality" wRuleNoSev wRuleNoPat
    wRuleNoAlgs [(wPat, "Dropping rows found")] wRevDefaults rfl rfl rfl rfl rfl

/-! ## C9 -/

/-- C9: determinism.  The engine is a pure function of the registry, the
parse outcome and the code: two reviewers holding the same registry return
identical issue lists, element for element and in the same order, on the
same input; in particular calling analyze_code twice on the same reviewer
and input gives identical output. -/
theorem analysis_deterministic (self1 self2 : MLCodeReviewer)
    (perr : Option SyntaxErr) (code : String)
    (h : self1.rules = self2.rules) :
    self1.analyze_code perr code = self2.analyze_code perr code := by
  cases self1
  cases self2
  cases h
  rfl

/-- Witness for C9 at a concrete registry and input. -/
theorem analysis_deterministic_witness :
    (MLCodeReviewer.mk [("feature_scaling", wRuleS)]).analyze_code none "model = KMeans()" =
      wRevS.analyze_code none "model = KMeans()" :=
  analysis_deterministic (MLCodeReviewer.mk [("feature_scaling", wRuleS)]) wRevS
    none "model = KMeans()" rfl

/-! ## C10 -/

/-- C10: frame condition.  In the state-passing embedding of the method
call, analysis leaves the reviewer, and in particular its rule registry,
unchanged, and its only effect is the returned issue list. -/
theorem registry_not_mutated (self : MLCodeReviewer) (perr : Option SyntaxErr)
    (code : String) :
    (self.analyze_code_st perr code).2 = self ∧
    (self.analyze_code_st perr code).2.rules = self.rules ∧
    (self.analyze_code_st perr code).1 = self.analyze_code perr code :=
  ⟨rfl, rfl, rfl⟩
